import Mathlib

/-!
# Verification of the qt_await cooperative scheduler

A shallow embedding of `qt_await` (src/qt_await/core.py and src/qt_await/utils.py).

Coroutines are embedded as `Prog`: an inductive whose `await` nodes carry the
continuation `Result → Prog` that the Python coroutine's remaining body denotes
(`coro.send(v)` resumes the continuation with `Value v`; `coro.throw(e)` with
`Error e`).  The scheduler state (`State`) carries the per-thread
`SignalPlumbing` maps (`waiting`, `tasks`), the heap of `Task` and
`SignalQueue` objects, and the Qt event loop's queue of zero-delay
`QTimer.singleShot` callbacks (`pending`).  Association lists keyed by `Nat`
model Python's `id()`-keyed dicts.
-/

namespace QtAwait

/-- `ReceivedSignal` (core.py line 142): sender, which signal fired, payload args.
Senders, signal kinds and payload values are modelled as naturals. -/
structure ReceivedSignal where
  sender : Nat := 0
  signal : Nat := 0
  args : List Nat := []
deriving DecidableEq, Repr, Inhabited

/-- Exceptions that can travel through the scheduler. `attrError` models the
`AttributeError` Python raises for `None.unwrap()`; `cancelled` models the
`Cancelled` class imported by utils.py (its definition is not under src/);
`timeoutExpired` models the timeout failure of the spec's Timeout Wrapper. -/
inductive Exc where
  | attrError
  | typeError
  | cancelled
  | timeoutExpired (ms : Nat)
  | runtimeErr (code : Nat)
  | user (n : Nat)
deriving DecidableEq, Repr

/-- Values a coroutine can produce or be resumed with: `None`, numbers, and
`ReceivedSignal` objects (the payloads that actually flow through qt_await). -/
inductive Val where
  | unit
  | nat (n : Nat)
  | rsig (r : ReceivedSignal)
  /-- a `Result` reified into a value, used by observer programs in theorems -/
  | verr (e : Exc)
deriving DecidableEq, Repr

end QtAwait

namespace QtAwait

/-- `Result` (core.py line 17): `Value` (core.py line 24) wraps a normal value,
`Error` (core.py line 37) wraps an exception.  `result.send(coro)` is
`coro.send(value)` for `Value` and `coro.throw(exc)` for `Error`; in the
embedding both feed the stored continuation the whole `Result`. -/
inductive Result where
  | Value (v : Val)
  | Error (e : Exc)
deriving DecidableEq, Repr

/-- What a coroutine yields to the scheduler: a reference to a `Task` or to a
`SignalQueue`, identified by ids (core.py lines 129-133 accept exactly these
two kinds). -/
inductive CatcherRef where
  | queue (q : Nat)
  | task (t : Nat)
deriving DecidableEq, Repr

/-- A coroutine body. `awaitQ q k` is `await <SignalQueue q>` with remaining
body `k` (SignalQueue.__await__, core.py line 186); `awaitT t k` is
`await <Task t>` (Task.__await__, core.py line 57); `awaitOne cats k` is
`await <one_of with .catchers = cats>` (one_of.__await__, core.py line 210);
`start p k` is `t = start_async(<coroutine p>); <k t>` (core.py line 237).
`ret v` ends the coroutine normally (`StopIteration(v)`), `fail e` lets the
exception `e` escape the coroutine. -/
inductive Prog where
  | ret (v : Val)
  | fail (e : Exc)
  | awaitQ (q : Nat) (k : Result → Prog)
  | awaitT (t : Nat) (k : Result → Prog)
  | awaitOne (cats : List CatcherRef) (k : Result → Prog)
  | start (p : Prog) (k : Nat → Prog)

/-- The stored suspension of a parked coroutine: at which kind of yield point it
stopped, and the continuation for the rest of its body.  `suspT` keeps the
awaited task's id because `Task.__await__` (core.py lines 57-61) ignores the
value sent in on resumption and instead returns `self._result.unwrap()`. -/
inductive KState where
  | suspQ (k : Result → Prog)
  | suspT (t : Nat) (k : Result → Prog)
  | suspOne (k : Result → Prog)

/-- `Task` (core.py line 50): `_result` starts as `None`; `waiters` is the
insertion-ordered dict of coroutines awaiting this task (keys only: the ids). -/
structure Task where
  result? : Option Result := none
  waiters : List Nat := []

/-- The mutable state of a `SignalQueue` object (core.py line 159): the deque
`signals_q` of buffered notifications and the insertion-ordered `waiters` dict
(keys only: coroutine ids). -/
structure SignalQueue where
  signals_q : List ReceivedSignal := []
  waiters : List Nat := []
deriving DecidableEq, Repr

/-- Association list keyed by `Nat`, modelling a Python dict (used for the
`id()`-keyed maps of `SignalPlumbing` and the object heaps). -/
def alookup {α : Type} : List (Nat × α) → Nat → Option α
  | [], _ => none
  | (k, v) :: rest, i => if k = i then some v else alookup rest i

/-- Remove key `i` (Python `dict.pop(i, None)`). -/
def aerase {α : Type} (l : List (Nat × α)) (i : Nat) : List (Nat × α) :=
  l.filter (fun p => p.1 ≠ i)

/-- Set key `i` to `v` (Python `d[i] = v`; key order is never iterated over for
these maps, so erase-then-append is an adequate model). -/
def aset {α : Type} (l : List (Nat × α)) (i : Nat) (v : α) : List (Nat × α) :=
  aerase l i ++ [(i, v)]

/-- Apply `f` to the value at key `i`, leaving other entries alone. -/
def aupdate {α : Type} (l : List (Nat × α)) (i : Nat) (f : α → α) : List (Nat × α) :=
  l.map (fun p => if p.1 = i then (p.1, f p.2) else p)

/-- The whole world: the object heaps, the per-thread `SignalPlumbing` maps
(core.py lines 82-83), the Qt event-loop queue of pending zero-delay
`QTimer.singleShot` callbacks (each one a deferred `step_coro(coro, result)`,
core.py line 139), and an operator-visible log channel.  The source contains
no logging call (only the TODO at core.py line 125), so no operation below
ever appends to `log`. -/
structure State where
  queues : List (Nat × SignalQueue) := []
  taskObjs : List (Nat × Task) := []
  /-- keys of `SignalPlumbing.tasks` (values are the task objects above) -/
  ptasks : List Nat := []
  kstates : List (Nat × KState) := []
  /-- `SignalPlumbing.waiting`: coroutine id ↦ tuple of catchers that can wake it -/
  waiting : List (Nat × List CatcherRef) := []
  pending : List (Nat × Result) := []
  log : List Exc := []
  nextId : Nat := 0

def getQueue (s : State) (q : Nat) : SignalQueue :=
  (alookup s.queues q).getD {}

def getTask (s : State) (t : Nat) : Task :=
  (alookup s.taskObjs t).getD {}

def setQBuf (s : State) (q : Nat) (buf : List ReceivedSignal) : State :=
  { s with queues := aupdate s.queues q (fun ob => { ob with signals_q := buf }) }

def setQWaiters (s : State) (q : Nat) (ws : List Nat) : State :=
  { s with queues := aupdate s.queues q (fun ob => { ob with waiters := ws }) }

/-- `catcher.waiters.pop(id(coro), None)` (core.py line 111). -/
def removeWaiter (cat : CatcherRef) (c : Nat) (s : State) : State :=
  match cat with
  | .queue q =>
      { s with queues :=
          aupdate s.queues q (fun ob => { ob with waiters := ob.waiters.filter (· ≠ c) }) }
  | .task t =>
      { s with taskObjs :=
          aupdate s.taskObjs t (fun ob => { ob with waiters := ob.waiters.filter (· ≠ c) }) }

/-- `catcher.waiters[id(coro)] = coro` (core.py line 131): dict assignment —
append the key if absent, keep its position if present. -/
def addWaiter (cat : CatcherRef) (c : Nat) (s : State) : State :=
  match cat with
  | .queue q =>
      { s with queues :=
          aupdate s.queues q (fun ob =>
            { ob with waiters := if c ∈ ob.waiters then ob.waiters else ob.waiters ++ [c] }) }
  | .task t =>
      { s with taskObjs :=
          aupdate s.taskObjs t (fun ob =>
            { ob with waiters := if c ∈ ob.waiters then ob.waiters else ob.waiters ++ [c] }) }

/-- `SignalPlumbing.task_finished` (core.py lines 137-139): for each waiter of
the finished task, schedule `step_coro(waiter, result)` on the event loop via
`QTimer.singleShot(0, lambda: ...)`.  The lambda closes over the loop
*variable* `waiter`, which by the time any deferred callback runs holds the
last waiter — so every scheduled entry targets the last-registered waiter.
Note this records nothing on the task object: `Task.set` is never called. -/
def task_finished (c : Nat) (res : Result) (s : State) : State :=
  let t := getTask s c
  { s with pending := s.pending ++ t.waiters.map (fun _ => (t.waiters.getLastD 0, res)) }

/-- Outcome of driving a coroutine one step: it suspended yielding `cats`
(storing suspension `ks`), or it finished with `res`. -/
inductive StepRes where
  | susp (cats : List CatcherRef) (ks : KState)
  | fin (res : Result)

/-- The bookkeeping after `result.send(coro)` returns or raises inside
`step_coro` (core.py lines 116-135): on suspension, store the suspension,
register the coroutine with each catcher and record the new wait set; on
completion, `self.tasks.pop(id(coro))` then `task_finished`. -/
def settle (c : Nat) (out : StepRes) (s : State) : State :=
  match out with
  | .susp cats ks =>
      let s1 := { s with kstates := aset s.kstates c ks }
      let s2 := cats.foldl (fun st cat => addWaiter cat c st) s1
      { s2 with waiting := aset s2.waiting c cats }
  | .fin res =>
      task_finished c res { s with ptasks := s.ptasks.filter (· ≠ c) }

/-- `one_of.__await__`'s readiness scan (core.py lines 211-217): the first
catcher, in listed order, with a buffered signal (popped from its deque) or a
completed result (`catcher.result()`, which raises the stored error if the
task failed — hence a `Result` is delivered either way). -/
def firstReady : List CatcherRef → State → Option (Result × State)
  | [], _ => none
  | CatcherRef.queue q :: rest, s =>
      match (getQueue s q).signals_q with
      | sig :: tl => some (Result.Value (Val.rsig sig), setQBuf s q tl)
      | [] => firstReady rest s
  | CatcherRef.task t :: rest, s =>
      match (getTask s t).result? with
      | some res => some (res, s)
      | none => firstReady rest s

/-- Run a coroutine body until it suspends or finishes, threading the state.
* `awaitQ`: `SignalQueue.__await__` (core.py lines 186-191) — pop the buffer
  if non-empty, else yield `(self,)`.
* `awaitT`: `Task.__await__` (core.py lines 57-61) — if `_result` is already
  set, continue with it (`unwrap` returns the value or raises the error);
  else yield the task.
* `awaitOne`: `one_of.__await__` (core.py lines 210-220) — deliver the first
  ready input without suspending, else yield the whole catcher tuple.
* `start`: `SignalPlumbing.start_coro` (core.py lines 102-106) — allocate the
  task, run the new coroutine's first step, settle it, continue with the task
  id.  (start_coro's `waiting[id] = ()` entry is popped again by the
  unhook loop of its own `step_coro` before anything reads it, so the net
  effect on `waiting` is what `settle` records.) -/
def runProg : Prog → State → State × StepRes
  | Prog.ret v, s => (s, .fin (.Value v))
  | Prog.fail e, s => (s, .fin (.Error e))
  | Prog.awaitQ q k, s =>
      match (getQueue s q).signals_q with
      | sig :: tl => runProg (k (.Value (.rsig sig))) (setQBuf s q tl)
      | [] => (s, .susp [CatcherRef.queue q] (.suspQ k))
  | Prog.awaitT t k, s =>
      match (getTask s t).result? with
      | some res => runProg (k res) s
      | none => (s, .susp [CatcherRef.task t] (.suspT t k))
  | Prog.awaitOne cats k, s =>
      match firstReady cats s with
      | some (r, s1) => runProg (k r) s1
      | none => (s, .susp cats (.suspOne k))
  | Prog.start p k, s =>
      let c := s.nextId
      let s1 := { s with nextId := c + 1, taskObjs := aset s.taskObjs c {},
                         ptasks := c :: s.ptasks }
      let (s2, out) := runProg p s1
      runProg (k c) (settle c out s2)

/-- `result.send(coro)` on a parked coroutine (core.py line 115): resume the
stored suspension with `r`.  For a `Task` await, `__await__` discards the sent
value and evaluates `self._result.unwrap()` — `_result` being `None` raises
`AttributeError` into the awaiting coroutine. -/
def resume (c : Nat) (r : Result) (s : State) : State × StepRes :=
  match alookup s.kstates c with
  | some (.suspQ k) => runProg (k r) s
  | some (.suspOne k) => runProg (k r) s
  | some (.suspT t k) =>
      match r with
      | .Error e => runProg (k (.Error e)) s
      | .Value _ =>
          match (getTask s t).result? with
          | none => runProg (k (.Error .attrError)) s
          | some res => runProg (k res) s
  | none => (s, .fin (.Error .attrError))

/-- `SignalPlumbing.waiting[id(coro)]`, the coroutine's current Wait Set. -/
def waitSetOf (s : State) (c : Nat) : List CatcherRef :=
  (alookup s.waiting c).getD []

/-- The unhook loop of `step_coro` (core.py lines 110-111): pop the wait set
and unregister the coroutine from every catcher in it. -/
def unhookAll (c : Nat) (s : State) : State :=
  (waitSetOf s c).foldl (fun st cat => removeWaiter cat c st)
    { s with waiting := aerase s.waiting c }

/-- Resume-and-settle, the tail of `step_coro` after the unhook loop. -/
def stepRun (c : Nat) (r : Result) (s : State) : State :=
  let (s1, out) := resume c r s
  settle c out s1

/-- `SignalPlumbing.step_coro` (core.py lines 108-135). -/
def step_coro (c : Nat) (r : Result) (s : State) : State :=
  stepRun c r (unhookAll c s)

/-- `SignalPlumbing.start_coro` / top-level `start_async` (core.py lines
102-106, 237-239): allocate the `Task`, register it in `SignalPlumbing.tasks`,
drive the coroutine's first step, and return the task id. -/
def start_coro (p : Prog) (s : State) : Nat × State :=
  let c := s.nextId
  let s1 := { s with nextId := c + 1, taskObjs := aset s.taskObjs c {},
                     ptasks := c :: s.ptasks }
  let (s2, out) := runProg p s1
  (c, settle c out s2)

def start_async (p : Prog) (s : State) : Nat × State :=
  start_coro p s

/-- `SignalQueue.on_signal` (core.py lines 175-184): wrap the firing in a
`ReceivedSignal`; if a waiter is registered, pop the first one and resume it
synchronously via `step_coro`, else append to the deque. -/
def on_signal (q : Nat) (sender sigId : Nat) (args : List Nat) (s : State) : State :=
  let sig : ReceivedSignal := ⟨sender, sigId, args⟩
  match (getQueue s q).waiters with
  | w :: rest => step_coro w (.Value (.rsig sig)) (setQWaiters s q rest)
  | [] =>
      { s with queues :=
          aupdate s.queues q (fun ob => { ob with signals_q := ob.signals_q ++ [sig] }) }

/-- The Qt event loop executing the oldest pending zero-delay
`QTimer.singleShot` callback (a deferred `step_coro`, core.py line 139). -/
def runPendingOne (s : State) : State :=
  match s.pending with
  | [] => s
  | (c, r) :: rest => step_coro c r { s with pending := rest }

/-- An argument to the `one_of` constructor (core.py lines 196-207): a
`SignalQueue`, an already-constructed nested `one_of` (contributing its
`.catchers`), or a raw coroutine (started on the spot via `start_coro`).
Any other type raises `TypeError`; the embedding's argument type is exact, so
that branch is unrepresentable. -/
inductive OneOfArg where
  | q (qid : Nat)
  | one (cs : List CatcherRef)
  | co (p : Prog)

/-- `one_of.__init__` (core.py lines 196-208): build the flat `catchers` tuple
left to right, starting coroutine arguments as tasks. -/
def one_of_init : List OneOfArg → State → List CatcherRef × State
  | [], s => ([], s)
  | OneOfArg.q i :: rest, s =>
      let (cs, s1) := one_of_init rest s
      (CatcherRef.queue i :: cs, s1)
  | OneOfArg.one cs :: rest, s =>
      let (cs1, s1) := one_of_init rest s
      (cs ++ cs1, s1)
  | OneOfArg.co p :: rest, s =>
      let (t, s1) := start_coro p s
      let (cs, s2) := one_of_init rest s1
      (CatcherRef.task t :: cs, s2)

/-- Readiness of a single `one_of` input, as `one_of.__await__` tests it:
non-empty buffer for a queue, completed `_result` for a task. -/
def ready (s : State) : CatcherRef → Bool
  | .queue q => !(getQueue s q).signals_q.isEmpty
  | .task t => (getTask s t).result?.isSome

/-- The list of waiter ids registered on a catcher. -/
def catWaiters (s : State) : CatcherRef → List Nat
  | .queue q => (getQueue s q).waiters
  | .task t => (getTask s t).waiters


/-- Reify a delivered `Result` into a `Val`, used by observer coroutines in
the theorems below (so that what a coroutine was resumed with becomes visible
in its task's completion value). -/
def resultVal : Result → Val
  | .Value v => v
  | .Error e => .verr e

/-- A fresh per-thread world holding the given (empty, waiterless)
`SignalQueue` objects. -/
def initState (queueIds : List Nat) : State :=
  { queues := queueIds.map (fun i => (i, {})) }

/-! ## utils.py: the streaming adapter (`read_streaming_bytes`) -/

/-- The inner drain loop `while b := dev.read(maxSize): yield b`
(utils.py line 58): split the device's currently-buffered bytes into chunks of
at most `maxSize`.  The fuel is the buffer length: with `maxSize ≥ 1` every
`read` consumes at least one byte, so the loop runs at most that many times;
`read(0)` always returns an empty bytes object, ending the loop at once. -/
def chunksOfFuel (maxSize : Nat) : Nat → List Nat → List (List Nat)
  | _, [] => []
  | 0, _ => []
  | fuel + 1, buf => buf.take maxSize :: chunksOfFuel maxSize fuel (buf.drop maxSize)

def chunksOf (maxSize : Nat) (buf : List Nat) : List (List Nat) :=
  if maxSize = 0 then [] else chunksOfFuel maxSize buf.length buf

/-- One interaction of `read_streaming_bytes` with its `SignalQueue`: the
signal the `await sig_q` returned, together with the bytes that arrived in the
device's buffer while the coroutine was suspended (the loop drains the buffer
completely before each await, so the pre-await buffer is always empty). -/
inductive StreamEvent where
  | readyRead (newBytes : List Nat)
  | readChannelFinished (newBytes : List Nat)
deriving DecidableEq, Repr

/-- `read_streaming_bytes` (utils.py lines 50-67) as a function from the
device's behaviour to the list of yielded chunks: drain the buffer, stop if
the finished flag was set on the previous iteration, otherwise consume the
next awaited signal (setting the flag on `readChannelFinished`) and loop.
When the event list is exhausted without a completion signal the real
coroutine stays suspended forever; the model ends the chunk list there. -/
def read_streaming_bytes (maxSize : Nat) : Bool → List Nat → List StreamEvent → List (List Nat)
  | true, buf, _ => chunksOf maxSize buf
  | false, buf, [] => chunksOf maxSize buf
  | false, buf, StreamEvent.readyRead bs :: rest =>
      chunksOf maxSize buf ++ read_streaming_bytes maxSize false bs rest
  | false, buf, StreamEvent.readChannelFinished bs :: rest =>
      chunksOf maxSize buf ++ read_streaming_bytes maxSize true bs rest

/-! ## utils.py: `run_process` -/

/-- The observable side effect `run_process` performs on its `QProcess` on the
cancellation path. -/
inductive ProcAction where
  | terminate
deriving DecidableEq, Repr

/-- The body of `run_process` after `sig = await sq` resolves or raises
(utils.py lines 40-48), as a function of that awaited outcome: on `Cancelled`,
`qproc.terminate()` then re-raise; on any other exception, plain propagation;
on a received signal, raise `RuntimeError` if it was `errorOccurred`
(carrying the error enum value, the signal's first argument), else return the
signal.  The returned pair is (process actions performed, in order; the
coroutine's outcome). -/
def run_process_resume (errorOccurredSig : Nat) (r : Result) : List ProcAction × Result :=
  match r with
  | .Error .cancelled => ([.terminate], .Error .cancelled)
  | .Error e => ([], .Error e)
  | .Value (.rsig sig) =>
      if sig.signal = errorOccurredSig then ([], .Error (.runtimeErr (sig.args.headD 0)))
      else ([], .Value (.rsig sig))
  | .Value v => ([], .Value v)

/-! ## The bounded `SignalQueue` buffer (spec-modelled) -/

/-- Modelled from the spec: the bounded notification buffer of
`SignalQueue(..., max_buffer_size=k)`.  The `max_buffer_size` parameter is
used by utils.py (`sleep`, `sleep_loop`) and so belongs to this repository,
but the revision of core.py under src/ does not define it; spec §3 and §4.1
say the buffer is FIFO and, when bounded and full, evicts the oldest buffered
notification to make room for the newest (a deque with `maxlen=k`). -/
def enqueue_bounded (k : Nat) (buf : List ReceivedSignal) (sig : ReceivedSignal) :
    List ReceivedSignal :=
  let b := buf ++ [sig]
  b.drop (b.length - k)

/-- Modelled from the spec: the state of a bounded Event Queue (spec §4.1). -/
structure SignalQueueB where
  cap : Nat
  signals_q : List ReceivedSignal := []
  waiters : List Nat := []
deriving DecidableEq, Repr

/-- Modelled from the spec: `on_signal` of a bounded queue (spec §4.1
`onNotification`): with a registered waiter, pop the oldest waiter and hand it
the notification; otherwise append to the buffer, evicting the oldest entry if
the bound is reached.  Returns the waiter chosen for delivery, if any. -/
def on_signal_b (q : SignalQueueB) (sig : ReceivedSignal) : SignalQueueB × Option Nat :=
  match q.waiters with
  | w :: rest => ({ q with waiters := rest }, some w)
  | [] => ({ q with signals_q := enqueue_bounded q.cap q.signals_q sig }, none)

/-- Modelled from the spec: awaiting a bounded queue with a non-empty buffer
pops and returns the oldest notification without suspending (spec §4.1
`wait()`); `none` means the await would suspend. -/
def await_pop (q : SignalQueueB) : Option (ReceivedSignal × SignalQueueB) :=
  match q.signals_q with
  | sig :: rest => some (sig, { q with signals_q := rest })
  | [] => none

/-- Deliver a burst of notifications to a bounded queue, oldest first. -/
def deliver_all (q : SignalQueueB) (sigs : List ReceivedSignal) : SignalQueueB :=
  sigs.foldl (fun st sg => (on_signal_b st sg).1) q

/-! ## The Timeout Wrapper (spec-modelled) -/

/-- Modelled from the spec: how the operation wrapped by `with_timeout`
responds to the Cancellation Signal injected when the timer fires first
(spec §4.4): it either lets the Cancellation Signal unwind it, or its own
failure handling catches the signal and raises a different failure. -/
inductive CancelResponse where
  | propagatesCancel
  | raisesOther (e : Exc)
deriving DecidableEq, Repr

/-- Modelled from the spec: the observable behaviour of the wrapped operation
in a `with_timeout(op, t)` call — either it resolves (with a value or its own
failure) before the deadline, or the deadline elapses first and the operation
is still pending, in which case only its response to cancellation matters. -/
inductive WrappedOutcome where
  | inTime (r : Result)
  | timedOut (resp : CancelResponse)
deriving DecidableEq, Repr

/-- Modelled from the spec: `with_timeout(op, timeout_ms)` — the function is
part of this repository (test_qt_await.py and demo.py import it from
qt_await) but absent from the revision of core.py under src/.  Spec §4.4:
race the operation against a single-shot timer; if the operation resolves
first, stop the timer (second component `true` = the timer can no longer
fire) and return its result; if the timer fires first, inject the
Cancellation Signal — if the operation unwinds with it, fail with
`timeoutExpired timeout_ms`, and if it substitutes a different failure, that
failure propagates instead. -/
def with_timeout (timeout_ms : Nat) : WrappedOutcome → Result × Bool
  | .inTime r => (r, true)
  | .timedOut .propagatesCancel => (.Error (.timeoutExpired timeout_ms), true)
  | .timedOut (.raisesOther e) => (.Error e, true)

/-! ## `connect_async` -/

/-- `connect_async`'s `start_slot` (core.py lines 229-232): truncate the
emitted arguments to the slot's declared parameter count, build the
coroutine, and start it on the slot owner's thread's plumbing. -/
def connect_async_fire (nargs : Nat) (slot : List Nat → Prog) (args : List Nat)
    (s : State) : Nat × State :=
  start_coro (slot (args.take nargs)) s


/-! ## Association-list lemmas -/

theorem alookup_append {α : Type} (l1 l2 : List (Nat × α)) (j : Nat) :
    alookup (l1 ++ l2) j = ((alookup l1 j).rec (alookup l2 j) (fun v => some v)) := by
  induction l1 with
  | nil => simp [alookup]
  | cons p rest ih =>
    obtain ⟨k, v⟩ := p
    by_cases h : k = j
    · simp only [List.cons_append, alookup, if_pos h]
    · simp only [List.cons_append, alookup, if_neg h]
      exact ih

theorem alookup_filter_ne {α : Type} (l : List (Nat × α)) (i j : Nat) :
    alookup (l.filter (fun p => p.1 ≠ i)) j =
      if j = i then none else alookup l j := by
  induction l with
  | nil => simp [alookup]
  | cons p rest ih =>
    obtain ⟨k, v⟩ := p
    by_cases hki : k = i
    · have hd : ¬ (decide (k ≠ i) = true) := by simp [hki]
      rw [List.filter_cons, if_neg hd, ih]
      by_cases hji : j = i
      · rw [if_pos hji, if_pos hji]
      · rw [if_neg hji, if_neg hji]
        have hkj : ¬ k = j := fun hh => hji (by rw [← hh]; exact hki)
        simp only [alookup, if_neg hkj]
    · have hd : decide (k ≠ i) = true := by simp [hki]
      rw [List.filter_cons, if_pos hd]
      by_cases hkj : k = j
      · have hji : ¬ j = i := by
          intro hh
          exact hki (by rw [hkj, hh])
        simp only [alookup, if_pos hkj, if_neg hji]
      · simp only [alookup, if_neg hkj, ih]

theorem alookup_aerase_self {α : Type} (l : List (Nat × α)) (i : Nat) :
    alookup (aerase l i) i = none := by
  rw [aerase, alookup_filter_ne, if_pos rfl]

theorem alookup_aerase_ne {α : Type} (l : List (Nat × α)) (i j : Nat) (h : j ≠ i) :
    alookup (aerase l i) j = alookup l j := by
  rw [aerase, alookup_filter_ne, if_neg h]

theorem alookup_aset_self {α : Type} (l : List (Nat × α)) (i : Nat) (v : α) :
    alookup (aset l i v) i = some v := by
  rw [aset, alookup_append, alookup_aerase_self]
  simp [alookup]

theorem alookup_aset_ne {α : Type} (l : List (Nat × α)) (i j : Nat) (v : α) (h : j ≠ i) :
    alookup (aset l i v) j = alookup l j := by
  rw [aset, alookup_append, alookup_aerase_ne l i j h]
  cases hl : alookup l j <;> simp [alookup, Ne.symm h]

theorem alookup_aupdate_self {α : Type} (l : List (Nat × α)) (i : Nat) (f : α → α) :
    alookup (aupdate l i f) i = (alookup l i).map f := by
  induction l with
  | nil => rfl
  | cons p rest ih =>
    obtain ⟨k, v⟩ := p
    simp only [aupdate, List.map_cons]
    by_cases h : k = i
    · rw [if_pos h]
      simp only [alookup, if_pos h]
      rfl
    · rw [if_neg h]
      simp only [alookup, if_neg h]
      exact ih

theorem alookup_aupdate_ne {α : Type} (l : List (Nat × α)) (i j : Nat) (f : α → α)
    (h : j ≠ i) : alookup (aupdate l i f) j = alookup l j := by
  induction l with
  | nil => rfl
  | cons p rest ih =>
    obtain ⟨k, v⟩ := p
    simp only [aupdate, List.map_cons]
    by_cases hki : k = i
    · have hkj : ¬ k = j := by omega
      rw [if_pos hki]
      simp only [alookup, if_neg hkj]
      exact ih
    · rw [if_neg hki]
      simp only [alookup]
      by_cases hkj : k = j
      · rw [if_pos hkj, if_pos hkj]
      · rw [if_neg hkj, if_neg hkj]
        exact ih

theorem getD_map_signals {o : Option SignalQueue} {f : SignalQueue → SignalQueue}
    (hf : ∀ ob, (f ob).signals_q = ob.signals_q) :
    ((o.map f).getD {}).signals_q = (o.getD {}).signals_q := by
  cases o <;> simp [hf]

/-! ## Field-preservation lemmas for the scheduler's primitive updates -/

theorem removeWaiter_signals (cat : CatcherRef) (c : Nat) (s : State) (q : Nat) :
    (getQueue (removeWaiter cat c s) q).signals_q = (getQueue s q).signals_q := by
  cases cat with
  | queue q1 =>
    by_cases h : q = q1
    · subst h
      simp only [removeWaiter, getQueue]
      rw [alookup_aupdate_self]
      exact getD_map_signals (fun ob => rfl)
    · simp only [removeWaiter, getQueue]
      rw [alookup_aupdate_ne _ _ _ _ h]
  | task t => rfl

theorem removeWaiter_queue_waiters (q1 c : Nat) (s : State) (q : Nat) :
    (getQueue (removeWaiter (.queue q1) c s) q).waiters =
      if q = q1 then (getQueue s q).waiters.filter (· ≠ c) else (getQueue s q).waiters := by
  by_cases h : q = q1
  · subst h
    simp only [removeWaiter, getQueue, if_pos rfl]
    rw [alookup_aupdate_self]
    cases alookup s.queues q <;> simp
  · simp only [removeWaiter, getQueue, if_neg h]
    rw [alookup_aupdate_ne _ _ _ _ h]

theorem removeWaiter_task_queues (t c : Nat) (s : State) :
    (removeWaiter (.task t) c s).queues = s.queues := rfl

theorem removeWaiter_queue_taskObjs (q1 c : Nat) (s : State) :
    (removeWaiter (.queue q1) c s).taskObjs = s.taskObjs := rfl

theorem removeWaiter_kstates (cat : CatcherRef) (c : Nat) (s : State) :
    (removeWaiter cat c s).kstates = s.kstates := by cases cat <;> rfl

theorem removeWaiter_waiting (cat : CatcherRef) (c : Nat) (s : State) :
    (removeWaiter cat c s).waiting = s.waiting := by cases cat <;> rfl

theorem removeWaiter_pending (cat : CatcherRef) (c : Nat) (s : State) :
    (removeWaiter cat c s).pending = s.pending := by cases cat <;> rfl

theorem removeWaiter_log (cat : CatcherRef) (c : Nat) (s : State) :
    (removeWaiter cat c s).log = s.log := by cases cat <;> rfl

theorem catWaiters_removeWaiter (cat1 cat : CatcherRef) (c : Nat) (s : State) :
    catWaiters (removeWaiter cat1 c s) cat =
      if cat = cat1 then (catWaiters s cat).filter (· ≠ c) else catWaiters s cat := by
  cases cat1 with
  | queue q1 =>
    cases cat with
    | queue q =>
      rw [show (catWaiters (removeWaiter (.queue q1) c s) (.queue q)) =
        (getQueue (removeWaiter (.queue q1) c s) q).waiters from rfl]
      rw [removeWaiter_queue_waiters]
      by_cases h : q = q1 <;> simp [h, catWaiters]
    | task t =>
      simp only [catWaiters, getTask, removeWaiter_queue_taskObjs]
      simp
  | task t1 =>
    cases cat with
    | queue q =>
      simp only [catWaiters, getQueue, removeWaiter_task_queues]
      simp
    | task t =>
      by_cases h : t = t1
      · subst h
        simp only [catWaiters, getTask, removeWaiter, if_pos rfl]
        rw [alookup_aupdate_self]
        cases alookup s.taskObjs t <;> simp
      · simp only [catWaiters, getTask, removeWaiter]
        rw [alookup_aupdate_ne _ _ _ _ h]
        simp [h]

theorem filter_ne_idem (l : List Nat) (c : Nat) :
    (l.filter (· ≠ c)).filter (· ≠ c) = l.filter (· ≠ c) := by
  induction l with
  | nil => rfl
  | cons a rest ih =>
    by_cases h : a = c <;> simp [List.filter, h, ih]

/-! ## Lemmas about the unhook loop of `step_coro` -/

theorem unhook_foldl_signals (ws : List CatcherRef) (c : Nat) (s : State) (q : Nat) :
    (getQueue (ws.foldl (fun st cat => removeWaiter cat c st) s) q).signals_q =
      (getQueue s q).signals_q := by
  induction ws generalizing s with
  | nil => rfl
  | cons cat rest ih => rw [List.foldl_cons, ih, removeWaiter_signals]

theorem unhook_foldl_kstates (ws : List CatcherRef) (c : Nat) (s : State) :
    (ws.foldl (fun st cat => removeWaiter cat c st) s).kstates = s.kstates := by
  induction ws generalizing s with
  | nil => rfl
  | cons cat rest ih => rw [List.foldl_cons, ih, removeWaiter_kstates]

theorem unhook_foldl_waiting (ws : List CatcherRef) (c : Nat) (s : State) :
    (ws.foldl (fun st cat => removeWaiter cat c st) s).waiting = s.waiting := by
  induction ws generalizing s with
  | nil => rfl
  | cons cat rest ih => rw [List.foldl_cons, ih, removeWaiter_waiting]

theorem unhook_foldl_pending (ws : List CatcherRef) (c : Nat) (s : State) :
    (ws.foldl (fun st cat => removeWaiter cat c st) s).pending = s.pending := by
  induction ws generalizing s with
  | nil => rfl
  | cons cat rest ih => rw [List.foldl_cons, ih, removeWaiter_pending]

theorem unhook_foldl_log (ws : List CatcherRef) (c : Nat) (s : State) :
    (ws.foldl (fun st cat => removeWaiter cat c st) s).log = s.log := by
  induction ws generalizing s with
  | nil => rfl
  | cons cat rest ih => rw [List.foldl_cons, ih, removeWaiter_log]

theorem unhook_foldl_queues_taskObjs (qids : List Nat) (c : Nat) (s : State) :
    ((qids.map CatcherRef.queue).foldl (fun st cat => removeWaiter cat c st) s).taskObjs
      = s.taskObjs := by
  induction qids generalizing s with
  | nil => rfl
  | cons q rest ih =>
    rw [List.map_cons, List.foldl_cons, ih, removeWaiter_queue_taskObjs]

/-- Removal never adds a registration: if `c` is not registered on `cat`, it
still is not after unhooking it from any catcher. -/
theorem notMem_catWaiters_removeWaiter (cat1 cat : CatcherRef) (c : Nat) (s : State)
    (h : c ∉ catWaiters s cat) : c ∉ catWaiters (removeWaiter cat1 c s) cat := by
  rw [catWaiters_removeWaiter]
  by_cases hc : cat = cat1
  · simp [hc]
  · simpa [hc] using h

theorem notMem_catWaiters_foldl (ws : List CatcherRef) (cat : CatcherRef) (c : Nat)
    (s : State) (h : c ∉ catWaiters s cat) :
    c ∉ catWaiters (ws.foldl (fun st cat1 => removeWaiter cat1 c st) s) cat := by
  induction ws generalizing s with
  | nil => exact h
  | cons cat1 rest ih =>
    rw [List.foldl_cons]
    exact ih _ (notMem_catWaiters_removeWaiter cat1 cat c s h)

/-- After the unhook loop runs over a wait set, the coroutine is registered on
none of the catchers that the wait set named. -/
theorem unhook_foldl_notMem (ws : List CatcherRef) (c : Nat) (s : State) (cat : CatcherRef)
    (hmem : cat ∈ ws) :
    c ∉ catWaiters (ws.foldl (fun st cat1 => removeWaiter cat1 c st) s) cat := by
  induction ws generalizing s with
  | nil => cases hmem
  | cons cat1 rest ih =>
    rw [List.foldl_cons]
    by_cases hr : cat ∈ rest
    · exact ih _ hr
    · have hcat : cat = cat1 := by
        rcases List.mem_cons.mp hmem with h | h
        · exact h
        · exact absurd h hr
      subst hcat
      refine notMem_catWaiters_foldl rest cat c _ ?_
      rw [catWaiters_removeWaiter, if_pos rfl]
      simp

/-- The exact waiter lists after unhooking a coroutine from a list of queues. -/
theorem unhook_foldl_queue_waiters (qids : List Nat) (c : Nat) (s : State) (q : Nat) :
    (getQueue ((qids.map CatcherRef.queue).foldl (fun st cat => removeWaiter cat c st) s) q).waiters
      = if q ∈ qids then (getQueue s q).waiters.filter (· ≠ c) else (getQueue s q).waiters := by
  induction qids generalizing s with
  | nil => simp
  | cons q1 rest ih =>
    rw [List.map_cons, List.foldl_cons, ih]
    by_cases hq : q ∈ rest
    · rw [if_pos hq, removeWaiter_queue_waiters]
      by_cases h1 : q = q1
      · rw [if_pos h1, filter_ne_idem]
        simp [hq]
      · simp [h1, hq]
    · rw [if_neg hq, removeWaiter_queue_waiters]
      by_cases h1 : q = q1
      · simp [h1, hq]
      · simp [h1, hq]


theorem setQWaiters_signals (s : State) (q1 : Nat) (ws : List Nat) (q : Nat) :
    (getQueue (setQWaiters s q1 ws) q).signals_q = (getQueue s q).signals_q := by
  by_cases h : q = q1
  · subst h
    simp only [setQWaiters, getQueue]
    rw [alookup_aupdate_self]
    exact getD_map_signals (fun ob => rfl)
  · simp only [setQWaiters, getQueue]
    rw [alookup_aupdate_ne _ _ _ _ h]

theorem setQWaiters_waiters_self (s : State) (q1 : Nat) (ws : List Nat)
    (h : (alookup s.queues q1).isSome) :
    (getQueue (setQWaiters s q1 ws) q1).waiters = ws := by
  simp only [setQWaiters, getQueue]
  rw [alookup_aupdate_self]
  obtain ⟨ob, hob⟩ := Option.isSome_iff_exists.mp h
  rw [hob]
  rfl

theorem getQueue_setQWaiters_ne (s : State) (q1 : Nat) (ws : List Nat) (q : Nat)
    (h : q ≠ q1) : getQueue (setQWaiters s q1 ws) q = getQueue s q := by
  simp only [setQWaiters, getQueue]
  rw [alookup_aupdate_ne _ _ _ _ h]

/-- A queue whose observed waiter list is non-empty exists in the heap. -/
theorem queues_isSome_of_waiters_ne (s : State) (q : Nat)
    (h : (getQueue s q).waiters ≠ []) : (alookup s.queues q).isSome := by
  cases hq : alookup s.queues q with
  | none => exact absurd (by simp [getQueue, hq]) h
  | some ob => rfl

theorem unhookAll_kstates (c : Nat) (s : State) :
    (unhookAll c s).kstates = s.kstates := by
  simp only [unhookAll]
  rw [unhook_foldl_kstates]

theorem unhookAll_pending (c : Nat) (s : State) :
    (unhookAll c s).pending = s.pending := by
  simp only [unhookAll]
  rw [unhook_foldl_pending]

theorem unhookAll_waiting (c : Nat) (s : State) :
    (unhookAll c s).waiting = aerase s.waiting c := by
  simp only [unhookAll]
  rw [unhook_foldl_waiting]

theorem unhookAll_signals (c : Nat) (s : State) (q : Nat) :
    (getQueue (unhookAll c s) q).signals_q = (getQueue s q).signals_q := by
  simp only [unhookAll]
  rw [unhook_foldl_signals]
  rfl

theorem unhookAll_log (c : Nat) (s : State) : (unhookAll c s).log = s.log := by
  simp only [unhookAll]
  rw [unhook_foldl_log]

/-- `step_coro` on a coroutine parked at a `one_of` yield whose remaining body
just returns the delivered result: the teardown runs, then the coroutine
finishes at once and `task_finished` schedules its waiters' wake-ups. -/
theorem step_coro_suspOne_ret (c : Nat) (r : Result) (s : State)
    (hk : alookup s.kstates c = some (KState.suspOne (fun r1 => Prog.ret (resultVal r1)))) :
    step_coro c r s =
      task_finished c (.Value (resultVal r))
        { unhookAll c s with ptasks := (unhookAll c s).ptasks.filter (· ≠ c) } := by
  simp only [step_coro, stepRun, resume]
  rw [show alookup (unhookAll c s).kstates c
        = some (KState.suspOne (fun r1 => Prog.ret (resultVal r1))) from by
      rw [unhookAll_kstates]; exact hk]
  rfl

/-- `task_finished` only appends deferred wake-ups to the event-loop queue. -/
theorem task_finished_fields (c : Nat) (res : Result) (s : State) :
    (task_finished c res s).pending
        = s.pending ++ (getTask s c).waiters.map (fun _ => ((getTask s c).waiters.getLastD 0, res))
      ∧ (task_finished c res s).queues = s.queues
      ∧ (task_finished c res s).taskObjs = s.taskObjs
      ∧ (task_finished c res s).kstates = s.kstates
      ∧ (task_finished c res s).waiting = s.waiting
      ∧ (task_finished c res s).log = s.log := by
  exact ⟨rfl, rfl, rfl, rfl, rfl, rfl⟩


/-- C2: on every resumption via `step_coro` the coroutine's previous Wait Set
is fully torn down — the coroutine is unregistered from the waiters map of
every waitable the wait set named — before its logic runs or a new Wait Set
is established (`step_coro` is definitionally teardown followed by
resume-and-settle, and after the teardown the coroutine is registered
nowhere in its old wait set); consequently, when a race over N Event Queues
resolves because one of them fires, only the winning notification is
consumed (it is handed to the racing coroutine exactly once, and no queue's
buffer changes), each losing queue retains its buffered state and no longer
lists the racer as a waiter (so it can be awaited later), and the racer's
old wait set entry is gone. -/
theorem step_coro_teardown_and_race_isolation :
    (∀ (s : State) (c : Nat) (r : Result),
        step_coro c r s = stepRun c r (unhookAll c s)) ∧
    (∀ (s : State) (c : Nat) (cat : CatcherRef), cat ∈ waitSetOf s c →
        c ∉ catWaiters (unhookAll c s) cat) ∧
    (∀ (qids : List Nat) (qw c d sender sigId : Nat) (args : List Nat) (s : State),
      qw ∈ qids →
      alookup s.waiting c = some (qids.map CatcherRef.queue) →
      (∀ q ∈ qids, (getQueue s q).waiters = [c]) →
      alookup s.kstates c = some (KState.suspOne (fun r1 => Prog.ret (resultVal r1))) →
      (getTask s c).waiters = [d] →
      ((∀ q ∈ qids, (getQueue (on_signal qw sender sigId args s) q).signals_q
          = (getQueue s q).signals_q) ∧
       (∀ q ∈ qids, (getQueue (on_signal qw sender sigId args s) q).waiters = []) ∧
       (on_signal qw sender sigId args s).pending
          = s.pending ++ [(d, Result.Value (Val.rsig ⟨sender, sigId, args⟩))] ∧
       alookup (on_signal qw sender sigId args s).waiting c = none)) := by
  refine ⟨fun s c r => rfl, ?_, ?_⟩
  · intro s c cat hmem
    simp only [unhookAll]
    exact unhook_foldl_notMem _ c _ cat hmem
  · intro qids qw c d sender sigId args s hw hwait hq hk htw
    have hqw := hq qw hw
    have hsome : (alookup s.queues qw).isSome :=
      queues_isSome_of_waiters_ne s qw (by rw [hqw]; simp)
    have hstep : on_signal qw sender sigId args s
        = step_coro c (.Value (.rsig ⟨sender, sigId, args⟩)) (setQWaiters s qw []) := by
      simp only [on_signal]
      rw [hqw]
    have hfin := step_coro_suspOne_ret c (.Value (.rsig ⟨sender, sigId, args⟩))
      (setQWaiters s qw []) hk
    rw [hstep, hfin]
    have hws : waitSetOf (setQWaiters s qw []) c = qids.map CatcherRef.queue := by
      simp only [waitSetOf]
      rw [show (setQWaiters s qw []).waiting = s.waiting from rfl, hwait]
      rfl
    have hufold : unhookAll c (setQWaiters s qw [])
        = (qids.map CatcherRef.queue).foldl (fun st cat => removeWaiter cat c st)
            { setQWaiters s qw [] with waiting := aerase (setQWaiters s qw []).waiting c } := by
      rw [unhookAll, hws]
    refine ⟨?_, ?_, ?_, ?_⟩
    · intro q hqmem
      show (getQueue (unhookAll c (setQWaiters s qw [])) q).signals_q
        = (getQueue s q).signals_q
      rw [hufold, unhook_foldl_signals]
      exact setQWaiters_signals s qw [] q
    · intro q hqmem
      show (getQueue (unhookAll c (setQWaiters s qw [])) q).waiters = []
      rw [hufold, unhook_foldl_queue_waiters, if_pos hqmem]
      by_cases hqq : q = qw
      · subst hqq
        rw [show (getQueue { setQWaiters s q [] with
              waiting := aerase (setQWaiters s q []).waiting c } q).waiters
            = (getQueue (setQWaiters s q []) q).waiters from rfl]
        rw [setQWaiters_waiters_self s q [] hsome]
        rfl
      · rw [show (getQueue { setQWaiters s qw [] with
              waiting := aerase (setQWaiters s qw []).waiting c } q).waiters
            = (getQueue (setQWaiters s qw []) q).waiters from rfl]
        rw [getQueue_setQWaiters_ne s qw [] q hqq, hq q hqmem]
        simp
    · show (task_finished c _ _).pending = _
      rw [(task_finished_fields _ _ _).1]
      have hpend : (unhookAll c (setQWaiters s qw [])).pending = s.pending := by
        rw [unhookAll_pending]
        rfl
      have htobj : (unhookAll c (setQWaiters s qw [])).taskObjs = s.taskObjs := by
        rw [hufold]
        rw [unhook_foldl_queues_taskObjs]
        rfl
      have hgt : getTask { unhookAll c (setQWaiters s qw []) with
          ptasks := (unhookAll c (setQWaiters s qw [])).ptasks.filter (· ≠ c) } c
          = getTask s c := by
        simp only [getTask]
        rw [show ({ unhookAll c (setQWaiters s qw []) with
            ptasks := (unhookAll c (setQWaiters s qw [])).ptasks.filter (· ≠ c) } : State).taskObjs
          = (unhookAll c (setQWaiters s qw [])).taskObjs from rfl, htobj]
      rw [hgt, htw]
      rw [show ({ unhookAll c (setQWaiters s qw []) with
          ptasks := (unhookAll c (setQWaiters s qw [])).ptasks.filter (· ≠ c) } : State).pending
        = (unhookAll c (setQWaiters s qw [])).pending from rfl, hpend]
      rfl
    · show alookup (task_finished c _ _).waiting c = none
      rw [(task_finished_fields _ _ _).2.2.2.2.1]
      rw [show ({ unhookAll c (setQWaiters s qw []) with
          ptasks := (unhookAll c (setQWaiters s qw [])).ptasks.filter (· ≠ c) } : State).waiting
        = (unhookAll c (setQWaiters s qw [])).waiting from rfl]
      rw [unhookAll_waiting]
      exact alookup_aerase_self _ c

/-- A concrete two-queue race for the witness: coroutine 0 races queues 10
and 20 (queue 10 holding a buffered notification), task 0 is awaited by
coroutine 5, and queue 20 fires. -/
def c2s : State :=
  { queues := [(10, { signals_q := [⟨1, 2, [3]⟩], waiters := [0] }),
               (20, { signals_q := [], waiters := [0] })],
    taskObjs := [(0, { result? := none, waiters := [5] })],
    ptasks := [0],
    kstates := [(0, KState.suspOne (fun r1 => Prog.ret (resultVal r1)))],
    waiting := [(0, [CatcherRef.queue 10, CatcherRef.queue 20])],
    nextId := 1 }

theorem step_coro_teardown_and_race_isolation_witness :
    CatcherRef.queue 10 ∈ waitSetOf c2s 0 ∧
    (0 : Nat) ∉ catWaiters (unhookAll 0 c2s) (CatcherRef.queue 10) ∧
    (getQueue (on_signal 20 7 8 [9] c2s) 10).signals_q = [⟨1, 2, [3]⟩] ∧
    (getQueue (on_signal 20 7 8 [9] c2s) 10).waiters = [] ∧
    (getQueue (on_signal 20 7 8 [9] c2s) 20).waiters = [] ∧
    (on_signal 20 7 8 [9] c2s).pending = [(5, Result.Value (Val.rsig ⟨7, 8, [9]⟩))] ∧
    alookup (on_signal 20 7 8 [9] c2s).waiting 0 = none := by
  have h3 := step_coro_teardown_and_race_isolation.2.2 [10, 20] 20 0 5 7 8 [9] c2s
    (by decide) (by rfl) (by decide) (by rfl) (by rfl)
  refine ⟨by decide,
    step_coro_teardown_and_race_isolation.2.1 c2s 0 (CatcherRef.queue 10) (by decide),
    ?_, h3.2.1 10 (by decide), h3.2.1 20 (by decide), ?_, h3.2.2.2⟩
  · rw [h3.1 10 (by decide)]
    rfl
  · rw [h3.2.2.1]
    rfl


/-! ## Concrete scenario: a task completing while another coroutine awaits it.

`demoChild` awaits queue 100 once and then returns 5; `demoMain` starts it and
awaits its `Task` directly, then parks on queue 101 if the await raised
`AttributeError`, on queue 102 if it delivered a value, so that which value
the awaiter was resumed with is observable from the final state. -/

def demoChild : Prog := .awaitQ 100 (fun _ => .ret (.nat 5))

def demoMain : Prog :=
  .start demoChild (fun t => .awaitT t (fun r =>
    match r with
    | .Error .attrError => .awaitQ 101 (fun _ => .ret .unit)
    | .Value _ => .awaitQ 102 (fun _ => .ret .unit)
    | .Error _ => .ret .unit))

/-- The state right after queue 100 fires: the child (coroutine 1) has
finished, `on_signal` has returned, and the only trace of the completion is
the deferred single-shot callback. -/
def c1mid : State :=
  on_signal 100 7 9 [] (start_async demoMain (initState [100, 101, 102])).2

/-- The state after the event loop then runs that deferred callback. -/
def c1run : State := runPendingOne c1mid

/-- C1: the claim fails on this code.  After the child task (coroutine 1)
completes normally with 5 and the event loop delivers the deferred wake-up,
the `Task` handle still holds no result (`_result` is `None`: `done()` is
`False` and `result()` would raise) because `task_finished` never calls
`Task.set`, and the awaiting coroutine 0 was resumed with `AttributeError`
(from `self._result.unwrap()` in `Task.__await__`) rather than with the
value 5: it ends up parked on queue 101 (the `AttributeError` branch), not
queue 102 (the value branch). -/
theorem task_result_never_recorded :
    (getTask c1run 1).result? = none
      ∧ (getQueue c1run 101).waiters = [0]
      ∧ (getQueue c1run 102).waiters = []
      ∧ c1run.pending = [] := by
  decide

/-- C3: counterexample.  When the child task completes inside the
`on_signal`-triggered `step_coro`, its awaiter (coroutine 0) is *not* resumed
before the triggering call returns: after `on_signal` has returned, the
resumption is merely queued on the event loop (`pending` holds the deferred
`step_coro(waiter, result)` call scheduled by `QTimer.singleShot(0, ...)`)
and coroutine 0 is still parked awaiting task 1 — contradicting "each
affected waiter is resumed synchronously, within the same call, ... for any
of the two wake-up paths". -/
theorem completion_wakeup_not_synchronous_cex :
    c1mid.pending = [(0, Result.Value (Val.nat 5))]
      ∧ alookup c1mid.waiting 0 = some [CatcherRef.task 1]
      ∧ (getQueue c1mid 101).waiters = []
      ∧ (getQueue c1mid 102).waiters = [] := by
  decide

/-- C3 (amended): the two wake-up paths differ.  Notification delivery is
synchronous — `on_signal` with a registered waiter *is* a `step_coro` call on
that waiter, within the same call — while task completion is deferred:
`task_finished` only appends zero-delay timer callbacks to the event loop's
queue (one per waiter, each targeting the loop variable's final value) and
steps no waiter itself (its call leaves every coroutine's stored state, the
wait-set map and all queues untouched). -/
theorem signal_sync_completion_deferred :
    (∀ (q sender sigId : Nat) (args : List Nat) (s : State) (c : Nat) (rest : List Nat),
      (getQueue s q).waiters = c :: rest →
      on_signal q sender sigId args s
        = step_coro c (.Value (.rsig ⟨sender, sigId, args⟩)) (setQWaiters s q rest)) ∧
    (∀ (c : Nat) (res : Result) (s : State),
      (task_finished c res s).pending
          = s.pending
            ++ (getTask s c).waiters.map (fun _ => ((getTask s c).waiters.getLastD 0, res))
        ∧ (task_finished c res s).kstates = s.kstates
        ∧ (task_finished c res s).waiting = s.waiting
        ∧ (task_finished c res s).queues = s.queues) := by
  refine ⟨?_, fun c res s => ⟨rfl, rfl, rfl, rfl⟩⟩
  intro q sender sigId args s c rest h
  simp only [on_signal]
  rw [h]

/-- A one-waiter queue state for the witness of the amended C3 statement. -/
def c3s : State :=
  { queues := [(0, { signals_q := [], waiters := [3] })],
    kstates := [(3, KState.suspQ (fun _ => Prog.ret .unit))],
    waiting := [(3, [CatcherRef.queue 0])],
    taskObjs := [(3, {})],
    ptasks := [3],
    nextId := 4 }

theorem signal_sync_completion_deferred_witness :
    (getQueue c3s 0).waiters = 3 :: []
      ∧ on_signal 0 1 2 [] c3s
          = step_coro 3 (.Value (.rsig ⟨1, 2, []⟩)) (setQWaiters c3s 0 [])
      ∧ (task_finished 3 (.Error (.user 1)) c3s).pending
          = c3s.pending ++ (getTask c3s 3).waiters.map
              (fun _ => ((getTask c3s 3).waiters.getLastD 0, .Error (.user 1))) := by
  exact ⟨rfl, signal_sync_completion_deferred.1 0 1 2 [] c3s 3 [] rfl,
    (signal_sync_completion_deferred.2 3 (.Error (.user 1)) c3s).1⟩

/-! ## C6: failures of unawaited top-level tasks -/

/-- A top-level coroutine that raises immediately, with nothing awaiting it. -/
def c6s : State := (start_async (Prog.fail (Exc.user 7)) (initState [])).2

/-- C6: counterexample.  A top-level Computation fails with nothing awaiting
it and the failure is reported nowhere: the operator-visible channel stays
empty (the source's `step_coro` has only a `# TODO: show traceback...`
comment), no wake-up is scheduled, and the error is not recorded on the task
either — it is silently dropped, contradicting "reported to an
operator-visible channel (logged), never silently dropped". -/
theorem unhandled_failure_not_logged_cex :
    c6s.log = [] ∧ c6s.pending = [] ∧ (getTask c6s 0).result? = none := by
  decide

/-- C6 (amended): when a top-level Computation's logic raises and nothing
awaits it, the failure is silently discarded — nothing is appended to the
operator-visible channel, no resumption is scheduled, and no result is
recorded on the task — while all other Computations are untouched (queues,
stored coroutine states, wait sets and the event-loop queue are exactly as
before), so their execution continues unaffected. -/
theorem unhandled_failure_dropped (e : Exc) (s : State) :
    (start_async (Prog.fail e) s).2.log = s.log
      ∧ (start_async (Prog.fail e) s).2.pending = s.pending
      ∧ (start_async (Prog.fail e) s).2.queues = s.queues
      ∧ (start_async (Prog.fail e) s).2.kstates = s.kstates
      ∧ (start_async (Prog.fail e) s).2.waiting = s.waiting
      ∧ (getTask (start_async (Prog.fail e) s).2 (start_async (Prog.fail e) s).1).result?
          = none := by
  refine ⟨rfl, ?_, rfl, rfl, rfl, ?_⟩
  · simp only [start_async, start_coro, runProg, settle, task_finished, getTask]
    rw [alookup_aset_self]
    simp
  · simp only [start_async, start_coro, runProg, settle, task_finished, getTask]
    rw [alookup_aset_self]
    rfl


/-! ## C4: `one_of` resolves immediately on the earliest ready input, and
nested races flatten to one race. -/

/-- C4: awaiting a `one_of` resolves immediately, without suspending, whenever
`firstReady` finds a ready input (`runProg` proceeds straight into the
continuation — no `susp` outcome is produced); the input chosen is the
earliest-listed ready one — inputs before it that are not ready (empty buffer
for a queue, unset `_result` for a task) are skipped, and scanning stops at
the first ready input regardless of what follows; and `one_of` construction
is a homomorphism on argument lists with nested `one_of` arguments
contributing exactly their catcher tuples, so a race of races produces the
same flat catcher list (hence the same awaiting behaviour) as the single
race over the concatenated inputs. -/
theorem one_of_first_ready_flattening :
    (∀ (cats : List CatcherRef) (k : Result → Prog) (s : State) (r : Result) (s1 : State),
       firstReady cats s = some (r, s1) →
       runProg (Prog.awaitOne cats k) s = runProg (k r) s1) ∧
    (∀ (pre : List CatcherRef) (cat : CatcherRef) (post : List CatcherRef) (s : State),
       (∀ x ∈ pre, ready s x = false) → ready s cat = true →
       firstReady (pre ++ cat :: post) s = firstReady [cat] s
         ∧ (firstReady [cat] s).isSome) ∧
    (∀ (as1 as2 : List OneOfArg) (s : State),
       one_of_init (as1 ++ as2) s
         = ((one_of_init as1 s).1 ++ (one_of_init as2 (one_of_init as1 s).2).1,
            (one_of_init as2 (one_of_init as1 s).2).2)) ∧
    (∀ (cs : List CatcherRef) (s : State), one_of_init [OneOfArg.one cs] s = (cs, s)) := by
  refine ⟨?_, ?_, ?_, ?_⟩
  · intro cats k s r s1 h
    simp only [runProg]
    rw [h]
  · intro pre cat post s hpre hcat
    induction pre with
    | nil =>
      simp only [List.nil_append]
      cases cat with
      | queue q =>
        simp only [ready] at hcat
        cases hb : (getQueue s q).signals_q with
        | nil => rw [hb] at hcat; simp at hcat
        | cons sig tl => exact ⟨by simp [firstReady, hb], by simp [firstReady, hb]⟩
      | task t =>
        simp only [ready] at hcat
        cases hb : (getTask s t).result? with
        | none => rw [hb] at hcat; simp at hcat
        | some res => exact ⟨by simp [firstReady, hb], by simp [firstReady, hb]⟩
    | cons x pre1 ih =>
      have hx : ready s x = false := hpre x (List.mem_cons_self x pre1)
      have hrest : ∀ y ∈ pre1, ready s y = false :=
        fun y hy => hpre y (List.mem_cons_of_mem x hy)
      have hskip : firstReady ((x :: pre1) ++ cat :: post) s
          = firstReady (pre1 ++ cat :: post) s := by
        cases x with
        | queue q =>
          simp only [ready] at hx
          cases hb : (getQueue s q).signals_q with
          | nil => simp only [List.cons_append, firstReady, hb]; rfl
          | cons sig tl => rw [hb] at hx; simp at hx
        | task t =>
          simp only [ready] at hx
          cases hb : (getTask s t).result? with
          | none => simp only [List.cons_append, firstReady, hb]; rfl
          | some res => rw [hb] at hx; simp at hx
      rw [hskip]
      exact ih hrest
  · intro as1 as2 s
    induction as1 generalizing s with
    | nil => simp [one_of_init]
    | cons a rest ih =>
      cases a with
      | q i => simp [one_of_init, ih]
      | one cs => simp [one_of_init, ih, List.append_assoc]
      | co p => simp [one_of_init, ih]
  · intro cs s
    simp [one_of_init]

/-- A state for the C4 witness: queue 30 holds a buffered notification, task 9
is still pending, queue 31 is empty. -/
def c4s : State :=
  { queues := [(30, { signals_q := [⟨4, 5, [6]⟩], waiters := [] }), (31, {})],
    taskObjs := [(9, {})],
    nextId := 10 }

theorem one_of_first_ready_flattening_witness :
    firstReady [CatcherRef.task 9, CatcherRef.queue 30] c4s
        = some (Result.Value (Val.rsig ⟨4, 5, [6]⟩), setQBuf c4s 30 [])
      ∧ runProg (Prog.awaitOne [CatcherRef.task 9, CatcherRef.queue 30]
            (fun r => Prog.ret (resultVal r))) c4s
          = runProg (Prog.ret (Val.rsig ⟨4, 5, [6]⟩)) (setQBuf c4s 30 [])
      ∧ (∀ x ∈ [CatcherRef.task 9, CatcherRef.queue 31], ready c4s x = false)
      ∧ ready c4s (CatcherRef.queue 30) = true
      ∧ firstReady ([CatcherRef.task 9, CatcherRef.queue 31]
            ++ CatcherRef.queue 30 :: [CatcherRef.queue 31]) c4s
          = firstReady [CatcherRef.queue 30] c4s
      ∧ one_of_init ([OneOfArg.q 30] ++ [OneOfArg.q 31]) c4s
          = ((one_of_init [OneOfArg.q 30] c4s).1
               ++ (one_of_init [OneOfArg.q 31] (one_of_init [OneOfArg.q 30] c4s).2).1,
             (one_of_init [OneOfArg.q 31] (one_of_init [OneOfArg.q 30] c4s).2).2)
      ∧ one_of_init [OneOfArg.one [CatcherRef.queue 30, CatcherRef.queue 31]] c4s
          = ([CatcherRef.queue 30, CatcherRef.queue 31], c4s) := by
  refine ⟨rfl,
    one_of_first_ready_flattening.1 [CatcherRef.task 9, CatcherRef.queue 30]
      (fun r => Prog.ret (resultVal r)) c4s _ _ rfl,
    by decide, rfl,
    (one_of_first_ready_flattening.2.1 [CatcherRef.task 9, CatcherRef.queue 31]
      (CatcherRef.queue 30) [CatcherRef.queue 31] c4s (by decide) rfl).1,
    one_of_first_ready_flattening.2.2.1 [OneOfArg.q 30] [OneOfArg.q 31] c4s,
    one_of_first_ready_flattening.2.2.2 [CatcherRef.queue 30, CatcherRef.queue 31] c4s⟩


/-! ## C5: bounded buffer evicts the oldest notification -/

theorem deliver_all_no_waiters (k : Nat) (buf sigs : List ReceivedSignal) :
    deliver_all { cap := k, signals_q := buf, waiters := [] } sigs
      = { cap := k, signals_q := sigs.foldl (enqueue_bounded k) buf, waiters := [] } := by
  induction sigs generalizing buf with
  | nil => rfl
  | cons sg rest ih =>
    rw [List.foldl_cons]
    exact ih (enqueue_bounded k buf sg)

theorem foldl_enqueue_bounded (k : Nat) (sigs : List ReceivedSignal) :
    ∀ buf : List ReceivedSignal, buf.length ≤ k →
      sigs.foldl (enqueue_bounded k) buf
        = (buf ++ sigs).drop (buf.length + sigs.length - k) := by
  induction sigs with
  | nil =>
    intro buf h
    have h0 : buf.length + ([] : List ReceivedSignal).length - k = 0 := by simp; omega
    rw [h0]
    simp
  | cons sg rest ih =>
    intro buf h
    rw [List.foldl_cons]
    have hlen : (enqueue_bounded k buf sg).length
        = (buf.length + 1) - ((buf.length + 1) - k) := by
      simp [enqueue_bounded, List.length_drop]
    rw [ih (enqueue_bounded k buf sg) (by omega)]
    simp only [enqueue_bounded]
    rw [← List.drop_append_of_le_length (Nat.sub_le _ _), List.drop_drop]
    rw [List.append_cons buf sg rest]
    congr 1
    simp only [List.length_drop, List.length_append, List.length_cons, List.length_nil]
    omega

/-- C5: an Event Queue may be bounded; a bounded queue with capacity `k`
receiving `k + 1` notifications while no waiter is registered evicts the
oldest on arrival of the newest, so its buffer holds exactly the arrivals
after the first, the first subsequent await returns (without suspending) the
notification that arrived second, and exactly `k - 1` notifications remain
buffered afterwards. -/
theorem bounded_queue_evicts_oldest (k : Nat) (sigs : List ReceivedSignal)
    (hk : 1 ≤ k) (hlen : sigs.length = k + 1) :
    (deliver_all { cap := k } sigs).signals_q = sigs.drop 1
      ∧ await_pop (deliver_all { cap := k } sigs)
          = some (sigs.getD 1 default,
              { cap := k, signals_q := sigs.drop 2, waiters := [] })
      ∧ (sigs.drop 2).length = k - 1 := by
  have hfold : deliver_all { cap := k } sigs
      = { cap := k, signals_q := sigs.foldl (enqueue_bounded k) [], waiters := [] } :=
    deliver_all_no_waiters k [] sigs
  have hbuf : sigs.foldl (enqueue_bounded k) [] = sigs.drop 1 := by
    rw [foldl_enqueue_bounded k sigs [] (by simp)]
    simp only [List.nil_append, List.length_nil, Nat.zero_add]
    congr 1
    omega
  cases sigs with
  | nil => simp at hlen
  | cons a tl =>
    cases tl with
    | nil => simp at hlen; omega
    | cons b rest =>
      refine ⟨?_, ?_, ?_⟩
      · rw [hfold]
        exact hbuf
      · rw [hfold, hbuf]
        rfl
      · simp only [List.length_cons] at hlen
        simp only [List.drop, List.length_drop, List.length_cons]
        omega

theorem bounded_queue_evicts_oldest_witness :
    1 ≤ 2
      ∧ (⟨0, 0, [1]⟩ :: ⟨0, 0, [2]⟩ :: [(⟨0, 0, [3]⟩ : ReceivedSignal)]).length = 2 + 1
      ∧ (deliver_all { cap := 2 }
            (⟨0, 0, [1]⟩ :: ⟨0, 0, [2]⟩ :: [(⟨0, 0, [3]⟩ : ReceivedSignal)])).signals_q
          = (⟨0, 0, [1]⟩ :: ⟨0, 0, [2]⟩ :: [(⟨0, 0, [3]⟩ : ReceivedSignal)]).drop 1
      ∧ await_pop (deliver_all { cap := 2 }
            (⟨0, 0, [1]⟩ :: ⟨0, 0, [2]⟩ :: [(⟨0, 0, [3]⟩ : ReceivedSignal)]))
          = some ((⟨0, 0, [1]⟩ :: ⟨0, 0, [2]⟩ :: [(⟨0, 0, [3]⟩ : ReceivedSignal)]).getD 1 default,
              { cap := 2,
                signals_q := (⟨0, 0, [1]⟩ :: ⟨0, 0, [2]⟩
                  :: [(⟨0, 0, [3]⟩ : ReceivedSignal)]).drop 2,
                waiters := [] }) := by
  have h := bounded_queue_evicts_oldest 2
    (⟨0, 0, [1]⟩ :: ⟨0, 0, [2]⟩ :: [(⟨0, 0, [3]⟩ : ReceivedSignal)]) (by decide) (by decide)
  exact ⟨by decide, by decide, h.1, h.2.1⟩

/-! ## C7: the Timeout Wrapper -/

/-- C7: `with_timeout(op, t)` returns the operation's own result, with the
timer stopped so it can never fire late, whenever the operation resolves
within the deadline; it fails with `timeoutExpired t` (carrying the
configured duration) when the deadline elapses first and the operation lets
the injected Cancellation Signal unwind it; a substituted failure propagates
instead; and conversely a `timeoutExpired t` outcome can only arise from the
deadline elapsing with un-substituted cancellation — or from the operation
itself producing that very failure value. -/
theorem with_timeout_behaviour :
    (∀ (t : Nat) (r : Result), with_timeout t (.inTime r) = (r, true)) ∧
    (∀ t : Nat, with_timeout t (.timedOut .propagatesCancel)
        = (.Error (.timeoutExpired t), true)) ∧
    (∀ (t : Nat) (e : Exc), with_timeout t (.timedOut (.raisesOther e)) = (.Error e, true)) ∧
    (∀ (t : Nat) (b : WrappedOutcome),
       (with_timeout t b).1 = .Error (.timeoutExpired t) →
       b = .timedOut .propagatesCancel
         ∨ b = .inTime (.Error (.timeoutExpired t))
         ∨ b = .timedOut (.raisesOther (.timeoutExpired t))) := by
  refine ⟨fun t r => rfl, fun t => rfl, fun t e => rfl, ?_⟩
  intro t b h
  cases b with
  | inTime r =>
    right; left
    cases r with
    | Value v => simp [with_timeout] at h
    | Error e => simp [with_timeout] at h; rw [h]
  | timedOut resp =>
    cases resp with
    | propagatesCancel => left; rfl
    | raisesOther e =>
      right; right
      simp [with_timeout] at h
      rw [h]

theorem with_timeout_behaviour_witness :
    with_timeout 500 (.inTime (.Value (.nat 3))) = (.Value (.nat 3), true)
      ∧ ((.timedOut .propagatesCancel : WrappedOutcome) = .timedOut .propagatesCancel
          ∨ (.timedOut .propagatesCancel : WrappedOutcome)
              = .inTime (.Error (.timeoutExpired 500))
          ∨ (.timedOut .propagatesCancel : WrappedOutcome)
              = .timedOut (.raisesOther (.timeoutExpired 500))) :=
  ⟨with_timeout_behaviour.1 500 (.Value (.nat 3)),
   with_timeout_behaviour.2.2.2 500 (.timedOut .propagatesCancel) (by decide)⟩

/-! ## C8: the streaming adapter -/

theorem chunksOfFuel_flatten (m : Nat) (hm : 1 ≤ m) :
    ∀ (fuel : Nat) (buf : List Nat), buf.length ≤ fuel →
      (chunksOfFuel m fuel buf).flatten = buf := by
  intro fuel
  induction fuel with
  | zero =>
    intro buf h
    have hb : buf = [] := List.eq_nil_of_length_eq_zero (by omega)
    subst hb
    rfl
  | succ n ih =>
    intro buf h
    cases buf with
    | nil => rfl
    | cons a tl =>
      show ((a :: tl).take m :: chunksOfFuel m n ((a :: tl).drop m)).flatten = a :: tl
      rw [List.flatten_cons, ih ((a :: tl).drop m)
        (by simp only [List.length_drop, List.length_cons] at h ⊢; omega)]
      exact List.take_append_drop m (a :: tl)

theorem chunksOf_flatten (m : Nat) (hm : 1 ≤ m) (buf : List Nat) :
    (chunksOf m buf).flatten = buf := by
  rw [chunksOf, if_neg (by omega)]
  exact chunksOfFuel_flatten m hm buf.length buf le_rfl

theorem read_streaming_accum (m : Nat) (hm : 1 ≤ m) (tailBytes : List Nat)
    (extra : List StreamEvent) :
    ∀ (pieces : List (List Nat)) (buf : List Nat),
      (read_streaming_bytes m false buf
          (pieces.map StreamEvent.readyRead
            ++ StreamEvent.readChannelFinished tailBytes :: extra)).flatten
        = buf ++ pieces.flatten ++ tailBytes := by
  intro pieces
  induction pieces with
  | nil =>
    intro buf
    simp only [List.map_nil, List.nil_append, read_streaming_bytes]
    rw [List.flatten_append, chunksOf_flatten m hm, chunksOf_flatten m hm]
    simp
  | cons p ps ih =>
    intro buf
    rw [List.map_cons, List.cons_append]
    have hstep : ∀ (bufx : List Nat) (evs : List StreamEvent),
        read_streaming_bytes m false bufx (StreamEvent.readyRead p :: evs)
          = chunksOf m bufx ++ read_streaming_bytes m false p evs := fun bufx evs => by
      simp only [read_streaming_bytes]
    rw [hstep, List.flatten_append, chunksOf_flatten m hm, ih p]
    simp [List.append_assoc]

/-- C8: `read_streaming_bytes` does not stop on the completion signal — it
performs one more drain pass over whatever is still buffered, and only then
ends, ignoring any later events; and over a source that delivers a finite
byte string in pieces and then signals completion, the concatenation of all
yielded chunks is exactly the emitted bytes. -/
theorem read_streaming_final_drain_exact :
    (∀ (m : Nat) (buf bs : List Nat) (rest : List StreamEvent),
       read_streaming_bytes m false buf (StreamEvent.readChannelFinished bs :: rest)
         = chunksOf m buf ++ chunksOf m bs) ∧
    (∀ (m : Nat) (pieces : List (List Nat)) (tailBytes : List Nat) (extra : List StreamEvent),
       1 ≤ m →
       (read_streaming_bytes m false []
           (pieces.map StreamEvent.readyRead
             ++ StreamEvent.readChannelFinished tailBytes :: extra)).flatten
         = pieces.flatten ++ tailBytes) := by
  refine ⟨fun m buf bs rest => by simp only [read_streaming_bytes],
    fun m pieces tailBytes extra hm => ?_⟩
  rw [read_streaming_accum m hm tailBytes extra pieces []]
  rfl

theorem read_streaming_final_drain_exact_witness :
    1 ≤ 2
      ∧ (read_streaming_bytes 2 false []
          ([[104, 101], [108, 108, 111]].map StreamEvent.readyRead
            ++ StreamEvent.readChannelFinished [] :: [])).flatten
        = [[104, 101], [108, 108, 111]].flatten ++ [] :=
  ⟨by decide,
   read_streaming_final_drain_exact.2 2 [[104, 101], [108, 108, 111]] [] [] (by decide)⟩

/-! ## C9: `run_process` cleanup on cancellation -/

/-- C9: if the Cancellation Signal is raised inside `run_process` while it is
awaiting the process's finished/errorOccurred signals, the handler terminates
the subprocess and then re-raises the same Cancellation Signal to the caller;
no other failure triggers the terminate call (only `except Cancelled` is
handled). -/
theorem run_process_cancel_cleanup :
    (∀ errSig : Nat,
       run_process_resume errSig (.Error .cancelled)
         = ([ProcAction.terminate], .Error .cancelled)) ∧
    (∀ (errSig : Nat) (e : Exc), e ≠ .cancelled →
       run_process_resume errSig (.Error e) = ([], .Error e)) := by
  refine ⟨fun errSig => rfl, fun errSig e he => ?_⟩
  cases e <;> first | rfl | exact absurd rfl he

theorem run_process_cancel_cleanup_witness :
    run_process_resume 3 (.Error .cancelled) = ([ProcAction.terminate], .Error .cancelled)
      ∧ run_process_resume 3 (.Error (.user 5)) = ([], .Error (.user 5)) :=
  ⟨run_process_cancel_cleanup.1 3, run_process_cancel_cleanup.2 3 (.user 5) (by decide)⟩

/-! ## C10: `connect_async` truncates extra signal arguments -/

/-- C10: a signal connected via `connect_async` that fires with at least as
many arguments as the slot declares starts the slot coroutine with exactly
the first `nargs` emitted arguments: the truncated argument list has length
`nargs` and is an initial segment of the emitted arguments (the rest are
silently dropped). -/
theorem connect_async_truncates_args (nargs : Nat) (slot : List Nat → Prog)
    (args : List Nat) (s : State) (h : nargs ≤ args.length) :
    connect_async_fire nargs slot args s = start_coro (slot (args.take nargs)) s
      ∧ (args.take nargs).length = nargs
      ∧ args.take nargs ++ args.drop nargs = args := by
  refine ⟨rfl, ?_, List.take_append_drop nargs args⟩
  rw [List.length_take]
  omega

theorem connect_async_truncates_args_witness :
    (2 : Nat) ≤ ([4, 5, 6] : List Nat).length
      ∧ (([4, 5, 6] : List Nat).take 2).length = 2
      ∧ ([4, 5, 6] : List Nat).take 2 ++ ([4, 5, 6] : List Nat).drop 2 = [4, 5, 6] :=
  ⟨by decide,
   (connect_async_truncates_args 2 (fun l => Prog.ret (.nat (l.headD 0))) [4, 5, 6]
      (initState []) (by decide)).2.1,
   (connect_async_truncates_args 2 (fun l => Prog.ret (.nat (l.headD 0))) [4, 5, 6]
      (initState []) (by decide)).2.2⟩

end QtAwait
